import Mathlib

/-!
Verification of the opal-bot core: a shallow embedding of the calendar
abstraction (src/multical/calbase.ts), the conversation spool
(src/multibot/basebot.ts) and the dialogue orchestrator (lib/opalbot.ts,
provided as src/unnamed/part_002), with theorems settling the stated
properties of each.

Conventions: moments are natural-number timestamps; promises that can
reject are values of `Promised`; the asynchronous environment (the
classifications of the messages a conversation will receive) is passed in
as an explicit script, so every definition is executable.
-/

/-- A calendar event (calbase.ts, interface Event): title, start and end
moments. Compared by structural equality. -/
structure Event where
  title : String
  startT : Nat
  stopT : Nat
  deriving DecidableEq, Repr

/-- Outcome of a promise: it resolves with a value or rejects with an error
message. -/
inductive Promised (α : Type) where
  | resolved (v : α)
  | rejected (msg : String)
  deriving DecidableEq, Repr

/-- A calendar backend: the two abstract methods of `Calendar` in calbase.ts.
`getEventsImpl` fetches the remote events in a range; `scheduleEventImpl`
performs the remote write and may reject. -/
structure Backend where
  getEventsImpl : Nat → Nat → List Event
  scheduleEventImpl : Event → Promised Bool

/-- A Calendar (calbase.ts): one backend plus the optimistic event buffer
(the current world's view of `eventBuffer`). -/
structure Calendar where
  backend : Backend
  buffer : List Event

/-- Calendar.getEvents (calbase.ts lines 54-58). The source runs
`events.concat(Array.from(opal.ctx.view(this.eventBuffer)))` and discards
the result: JavaScript `Array.concat` returns a new array and does not
mutate its receiver. The discarded concatenation is kept here as an unused
binding to mirror the source line; the value returned is the remote fetch
result alone. -/
def Calendar.getEvents (c : Calendar) (s e : Nat) : List Event :=
  let events := c.backend.getEventsImpl s e
  let _ := events ++ c.buffer
  events

/-- Calendar.scheduleEvent (calbase.ts lines 60-65): logs the event, adds it
to the event buffer via `opal.ctx.add` (an append to the collection), and
returns `true` unconditionally. No backend call happens here. Returns the
updated calendar together with the boolean result. -/
def Calendar.scheduleEvent (c : Calendar) (ev : Event) : Calendar × Bool :=
  ({ c with buffer := c.buffer ++ [ev] }, true)

/-- An operation on an opal PSet (opal.PSet.Operation), as recorded by the
event-buffer collection: the bot only ever adds events. -/
inductive PSetOp where
  | add (ev : Event)
  | del (ev : Event)
  deriving DecidableEq, Repr

/-- opal.PSet.add: record the element in the node. -/
def PSet.add (node : List Event) (ev : Event) : List Event :=
  node ++ [ev]

/-- opal.PSet.del: remove the element from the node. -/
def PSet.del (node : List Event) (ev : Event) : List Event :=
  node.erase ev

/-- EventCollection.send (calbase.ts lines 21-36): folds the edit's
operations over the node; every `add` records the event and attempts the
backend's remote write, and a rejection of that write is caught by the
`.catch` and only logged, so `send` itself always returns normally.
Returns the final node together with the log of caught errors. -/
def EventCollection.send (b : Backend) (node : List Event) (ops : List PSetOp) :
    List Event × List String :=
  ops.foldl
    (fun acc op =>
      match op with
      | PSetOp.add ev =>
          let node2 := PSet.add acc.1 ev
          match b.scheduleEventImpl ev with
          | Promised.resolved _ => (node2, acc.2)
          | Promised.rejected msg => (node2, acc.2 ++ ["got error: " ++ msg])
      | PSetOp.del ev => (PSet.del acc.1 ev, acc.2))
    (node, [])

/-- The range-overlap test the specification describes for buffered events
(spec-side definition, written from the specification's words, for
comparison with the source's behavior). -/
def overlapsRange (ev : Event) (s e : Nat) : Prop :=
  ev.startT < e ∧ s < ev.stopT

/-- The specification's contract for getEvents (spec-side definition, from
the specification's words, for comparison with the source's
`Calendar.getEvents`): the result is sorted by start time, has no two
structurally-equal events, and its members are exactly the union of the
remote fetch result and the buffered events overlapping the range. -/
def getEventsContract (c : Calendar) (s e : Nat) : Prop :=
  List.Sorted (fun a b => a.startT ≤ b.startT) (c.getEvents s e)
  ∧ (c.getEvents s e).Nodup
  ∧ ∀ ev, ev ∈ c.getEvents s e ↔
      (ev ∈ c.backend.getEventsImpl s e ∨ (ev ∈ c.buffer ∧ overlapsRange ev s e))

/-- A concrete event used in the counterexamples. -/
def standup : Event := { title := "Standup", startT := 5, stopT := 6 }

/-- A backend that always succeeds and whose remote fetch is empty. -/
def emptyOkBackend : Backend :=
  { getEventsImpl := fun _ _ => []
    scheduleEventImpl := fun _ => Promised.resolved true }

/-- A calendar with an empty remote and one buffered event. -/
def bufferedCal : Calendar :=
  { backend := emptyOkBackend, buffer := [standup] }

/-- C2 counterexample: on a calendar whose remote fetch is empty and whose
buffer holds the overlapping event `standup`, `getEvents 0 10` returns the
empty list, so the specification's contract (membership equal to the union
with the buffer) fails at this concrete input. -/
theorem getEvents_union_counterexample :
    (getEventsContract bufferedCal 0 10 ↔ False)
    ∧ Calendar.getEvents bufferedCal 0 10 = []
    ∧ standup ∈ bufferedCal.buffer := by
  refine ⟨⟨fun h => ?_, False.elim⟩, rfl, by simp [bufferedCal]⟩
  have hmem := (h.2.2 standup).mpr
    (Or.inr ⟨by simp [bufferedCal], by exact ⟨by decide, by decide⟩⟩)
  simp [Calendar.getEvents, bufferedCal, emptyOkBackend] at hmem

/-- C2 (amended): `getEvents` returns exactly the backend's remote fetch
result for the range: the buffered events are dropped (the source discards
the result of `Array.concat`) and no sorting or deduplication happens. -/
theorem getEvents_remote_only (c : Calendar) (s e : Nat) :
    c.getEvents s e = c.backend.getEventsImpl s e := rfl

/-- A backend whose remote write always rejects. -/
def failingBackend : Backend :=
  { getEventsImpl := fun _ _ => []
    scheduleEventImpl := fun _ => Promised.rejected "network down" }

/-- A calendar over the failing backend with an empty buffer. -/
def failCal : Calendar := { backend := failingBackend, buffer := [] }

/-- C3 counterexample: on a calendar whose backend's remote write rejects,
`scheduleEvent` still returns `true`, so "true iff the remote write
acknowledged success" fails at this concrete input (the remote write is
not even invoked by `scheduleEvent`). -/
theorem scheduleEvent_counterexample :
    (failCal.scheduleEvent standup).2 = true
    ∧ failingBackend.scheduleEventImpl standup = Promised.rejected "network down" :=
  ⟨rfl, rfl⟩

/-- C3 (amended): `scheduleEvent` appends the event to the buffer, leaves the
backend untouched, and returns `true` unconditionally; the remote write is
deferred to commit time (`EventCollection.send`), where a rejection is
caught and logged. -/
theorem scheduleEvent_buffers_true (c : Calendar) (ev : Event) :
    (c.scheduleEvent ev).1.buffer = c.buffer ++ [ev]
    ∧ (c.scheduleEvent ev).1.backend = c.backend
    ∧ (c.scheduleEvent ev).2 = true :=
  ⟨rfl, rfl, rfl⟩

/-- ctx.commit(world) for the two-calendar scheduling world of
handle_schedule_meeting: opal finalizes each external collection by
running its `EventCollection.send` over the operations buffered in the
hypothetical world (one `add` of the event per calendar). Since `send`
catches every remote-write rejection, the commit always resolves; its
value here is the combined error log. -/
def commitTwo (b1 b2 : Backend) (ev : Event) : Promised (List String) :=
  Promised.resolved
    ((EventCollection.send b1 [] [PSetOp.add ev]).2
      ++ (EventCollection.send b2 [] [PSetOp.add ev]).2)

/-- Observable outcome of the transaction tail of
OpalBot.handle_schedule_meeting (part_002 lines 443-468): the aggregate
boolean, whether ctx.commit was invoked, the chat messages sent, and
whether the handler treated the event as booked (reported "Got it."). -/
structure ScheduleOutcome where
  aggregate : Bool
  commitCalled : Bool
  messages : List String
  booked : Bool
  deriving DecidableEq, Repr

/-- The transaction tail of OpalBot.handle_schedule_meeting (part_002 lines
443-468), parameterized by the booleans `m` and `t` that the two
`scheduleEvent` promises resolve to inside the hypothetical world: the
aggregate is `Promise.all` followed by `m && t`; if it holds, the handler
awaits ctx.commit (which runs both calendars' sends) and reports
"Got it." on resolution or a commit-failure message on rejection;
otherwise the handler reports failure without invoking commit. -/
def handleScheduleTail (b1 b2 : Backend) (ev : Event) (m t : Bool) :
    ScheduleOutcome :=
  let succeeded := m && t
  if succeeded then
    match commitTwo b1 b2 ev with
    | Promised.resolved _ =>
        { aggregate := succeeded, commitCalled := true,
          messages := ["Got it."], booked := true }
    | Promised.rejected e =>
        { aggregate := succeeded, commitCalled := true,
          messages := ["Failed to commit the meeting to both calendars: " ++ e],
          booked := false }
  else
    { aggregate := succeeded, commitCalled := false,
      messages := ["Could not schedule a meeting on both calendars."],
      booked := false }

/-- C1 counterexample: with one participant backend whose remote write
rejects, the scheduling attempt at results `(true, false)` never invokes
commit (the claim says commit reports failure), and the commit of a world
containing the failing write still resolves (its rejection is caught and
only logged by `EventCollection.send`), contradicting "commit succeeds
only when every individual write inside the body succeeded". -/
theorem handle_schedule_commit_counterexample :
    (handleScheduleTail failingBackend emptyOkBackend standup true false).commitCalled = false
    ∧ (handleScheduleTail failingBackend emptyOkBackend standup true false).messages
        = ["Could not schedule a meeting on both calendars."]
    ∧ commitTwo failingBackend emptyOkBackend standup
        = Promised.resolved ["got error: network down"]
    ∧ failingBackend.scheduleEventImpl standup = Promised.rejected "network down" := by
  refine ⟨rfl, rfl, ?_, rfl⟩
  simp [commitTwo, EventCollection.send, failingBackend, emptyOkBackend, PSet.add]

/-- C1 (amended): the aggregate outcome is the logical AND of the two
scheduleEvent results; given `(true, true)` the handler invokes commit and
reports success ("Got it."); given `(true, false)` the aggregate is
failure and the handler reports failure without invoking commit, so the
caller does not treat the event as booked; commit itself always resolves,
because `EventCollection.send` catches each remote-write failure and only
logs it. -/
theorem handle_schedule_aggregate_and (b1 b2 : Backend) (ev : Event) (m t : Bool) :
    (handleScheduleTail b1 b2 ev m t).aggregate = (m && t)
    ∧ (handleScheduleTail b1 b2 ev true true).messages = ["Got it."]
    ∧ (handleScheduleTail b1 b2 ev true true).commitCalled = true
    ∧ (handleScheduleTail b1 b2 ev true true).booked = true
    ∧ (handleScheduleTail b1 b2 ev true false).aggregate = false
    ∧ (handleScheduleTail b1 b2 ev true false).commitCalled = false
    ∧ (handleScheduleTail b1 b2 ev true false).booked = false
    ∧ (handleScheduleTail b1 b2 ev true false).messages
        = ["Could not schedule a meeting on both calendars."]
    ∧ ∃ logs, commitTwo b1 b2 ev = Promised.resolved logs := by
  refine ⟨?_, by simp [handleScheduleTail, commitTwo], by simp [handleScheduleTail, commitTwo],
    by simp [handleScheduleTail, commitTwo], rfl, rfl, rfl, rfl, ⟨_, rfl⟩⟩
  cases m <;> cases t <;> simp [handleScheduleTail, commitTwo]

/-- The Spool's state (basebot.ts, class Spool): the list of pending
waiters, in registration order. A waiter is its key paired with its
resolve callback, which we identify by an abstract value of type W. -/
structure Spool (K W : Type) where
  waiters : List (K × W)
  deriving DecidableEq, Repr

/-- Spool.wait (basebot.ts lines 59-65): push a waiter for the key at the
end of the list. -/
def Spool.wait {K W : Type} (s : Spool K W) (key : K) (cbk : W) : Spool K W :=
  { waiters := s.waiters ++ [(key, cbk)] }

/-- The scan inside Spool.dispatch (basebot.ts lines 73-79): find the first
waiter whose key equals the given key, remove it, and return its callback
together with the remaining list; none when no key matches. -/
def removeFirst {K W : Type} [DecidableEq K] (key : K) :
    List (K × W) → Option (W × List (K × W))
  | [] => none
  | (k, cbk) :: rest =>
      if k = key then some (cbk, rest)
      else
        match removeFirst key rest with
        | some (c, rest2) => some (c, (k, cbk) :: rest2)
        | none => none

/-- Spool.dispatch (basebot.ts lines 67-83): pop and return the first
waiter registered under the key, or return null and leave the list
unchanged. (The message argument of the source is unused by dispatch.) -/
def Spool.dispatch {K W : Type} [DecidableEq K] (s : Spool K W) (key : K) :
    Option W × Spool K W :=
  match removeFirst key s.waiters with
  | some (cbk, rest) => (some cbk, { waiters := rest })
  | none => (none, s)

/-- What one call to Spool.fire does, observably: its boolean return value,
the waiter callback it delivered the message to (if any), and how many
times it invoked `bot.onconverse` and `mkconv`. -/
structure FireResult (W : Type) where
  fired : Bool
  delivered : Option W
  handlerCalls : Nat
  convsMade : Nat
  deriving DecidableEq, Repr

/-- Spool.fire (basebot.ts lines 90-102): dispatch the key; when a callback
is found, invoke it with the message and return true; otherwise, when
`bot.onconverse` is registered (`onconverse = true`), synthesize a fresh
conversation with `mkconv()` and invoke the handler once, returning
false. -/
def Spool.fire {K W : Type} [DecidableEq K] (s : Spool K W) (onconverse : Bool)
    (key : K) : FireResult W × Spool K W :=
  match s.dispatch key with
  | (some cbk, s2) => ({ fired := true, delivered := some cbk,
                         handlerCalls := 0, convsMade := 0 }, s2)
  | (none, s2) =>
      if onconverse then
        ({ fired := false, delivered := none, handlerCalls := 1, convsMade := 1 }, s2)
      else
        ({ fired := false, delivered := none, handlerCalls := 0, convsMade := 0 }, s2)

/-- removeFirst returns none exactly when no waiter in the list has the key. -/
theorem removeFirst_eq_none_iff {K W : Type} [DecidableEq K] (key : K) :
    ∀ l : List (K × W), removeFirst key l = none ↔ ∀ p ∈ l, p.1 ≠ key
  | [] => by simp [removeFirst]
  | (k, c) :: rest => by
      by_cases hk : k = key
      · subst hk
        simp [removeFirst]
      · have ih := removeFirst_eq_none_iff key rest
        rw [removeFirst, if_neg hk]
        cases hrf : removeFirst key rest with
        | some cr =>
            obtain ⟨c2, rest2⟩ := cr
            constructor
            · intro habs; simp at habs
            · intro hall
              have hnone : removeFirst key rest = none :=
                ih.mpr fun p hp => hall p (List.mem_cons_of_mem _ hp)
              rw [hnone] at hrf
              exact Option.noConfusion hrf
        | none =>
            constructor
            · intro _ p hp
              rcases List.mem_cons.mp hp with h1 | h2
              · subst h1; exact hk
              · exact (ih.mp hrf) p h2
            · intro _; rfl

/-- When removeFirst finds a callback, the list splits as a key-free
left part, the removed waiter, and the untouched right part. -/
theorem removeFirst_some_split {K W : Type} [DecidableEq K] (key : K) :
    ∀ (l : List (K × W)) (c : W) (rest : List (K × W)),
      removeFirst key l = some (c, rest) →
      ∃ l1 l2, l = l1 ++ (key, c) :: l2 ∧ (∀ p ∈ l1, p.1 ≠ key) ∧ rest = l1 ++ l2
  | [], c, rest => by simp [removeFirst]
  | (k, c0) :: tl, c, rest => by
      intro h
      by_cases hk : k = key
      · subst hk
        rw [removeFirst, if_pos rfl] at h
        have h' : (c0, tl) = (c, rest) := Option.some.inj h
        have h1 : c0 = c := congrArg Prod.fst h'
        have h2 : tl = rest := congrArg Prod.snd h'
        subst h1
        subst h2
        exact ⟨[], tl, rfl, by simp, rfl⟩
      · rw [removeFirst, if_neg hk] at h
        cases hrf : removeFirst key tl with
        | none =>
            rw [hrf] at h
            exact Option.noConfusion h
        | some cr =>
            rw [hrf] at h
            obtain ⟨c2, rest2⟩ := cr
            have h' : (c2, (k, c0) :: rest2) = (c, rest) := Option.some.inj h
            have hc2 : c2 = c := congrArg Prod.fst h'
            have hr : (k, c0) :: rest2 = rest := congrArg Prod.snd h'
            subst hc2
            obtain ⟨l1, l2, hsplit, hfree, hrest⟩ :=
              removeFirst_some_split key tl c2 rest2 hrf
            refine ⟨(k, c0) :: l1, l2, ?_, ?_, ?_⟩
            · rw [hsplit]; rfl
            · intro p hp
              rcases List.mem_cons.mp hp with h1 | h2
              · subst h1; exact hk
              · exact hfree p h2
            · rw [← hr, hrest]; rfl

/-- removeFirst skips over a left part in which no key matches. -/
theorem removeFirst_append_no_match {K W : Type} [DecidableEq K] (key : K) :
    ∀ (l1 m : List (K × W)), (∀ p ∈ l1, p.1 ≠ key) →
      removeFirst key (l1 ++ m)
        = (removeFirst key m).map fun cr => (cr.1, l1 ++ cr.2)
  | [], m => by
      intro _
      cases hrf : removeFirst key m with
      | some cr => simp [hrf]
      | none => simp [hrf]
  | (k, c) :: tl, m => by
      intro h
      have hk : k ≠ key := h (k, c) (by simp)
      have ih := removeFirst_append_no_match key tl m fun p hp => h p (by simp [hp])
      rw [List.cons_append, removeFirst, if_neg hk, ih]
      cases hrf : removeFirst key m with
      | some cr => simp
      | none => simp

/-- C9: Spool.dispatch either removes exactly the earliest-registered waiter
whose key matches, leaving the others in unchanged relative order, or
returns null and leaves the waiter list unchanged; a match is found
whenever one exists; and Spool.wait appends exactly one waiter at the end
of the list and removes none. -/
theorem spool_dispatch_frame {K W : Type} [DecidableEq K] (s : Spool K W)
    (key : K) (w : W) :
    ((∀ p ∈ s.waiters, p.1 ≠ key) →
        (s.dispatch key).1 = none ∧ (s.dispatch key).2 = s)
    ∧ (∀ cbk, (s.dispatch key).1 = some cbk →
        ∃ l1 l2, s.waiters = l1 ++ (key, cbk) :: l2 ∧ (∀ p ∈ l1, p.1 ≠ key)
          ∧ (s.dispatch key).2.waiters = l1 ++ l2)
    ∧ ((∃ p ∈ s.waiters, p.1 = key) → ∃ cbk, (s.dispatch key).1 = some cbk)
    ∧ (s.wait key w).waiters = s.waiters ++ [(key, w)] := by
  refine ⟨?_, ?_, ?_, rfl⟩
  · intro h
    have hnone := (removeFirst_eq_none_iff key s.waiters).mpr h
    simp [Spool.dispatch, hnone]
  · intro cbk hsome
    cases hrf : removeFirst key s.waiters with
    | none => simp [Spool.dispatch, hrf] at hsome
    | some cr =>
        obtain ⟨c2, rest2⟩ := cr
        simp only [Spool.dispatch, hrf] at hsome ⊢
        have hc : c2 = cbk := Option.some.inj hsome
        subst hc
        obtain ⟨l1, l2, hsplit, hfree, hrest⟩ :=
          removeFirst_some_split key s.waiters c2 rest2 hrf
        exact ⟨l1, l2, hsplit, hfree, hrest⟩
  · intro ⟨p, hp, hpk⟩
    cases hrf : removeFirst key s.waiters with
    | none =>
        exact absurd hpk ((removeFirst_eq_none_iff key s.waiters).mp hrf p hp)
    | some cr =>
        obtain ⟨c2, rest2⟩ := cr
        exact ⟨c2, by simp [Spool.dispatch, hrf]⟩

/-- C4 as one statement: starting from a spool with no waiter under K,
registering W1 then W2 under K and dispatching two messages to K delivers
the first to W1 and the second to W2; a further dispatch to K returns
unmatched; and fire on that state, with the new-conversation handler
registered, invokes the handler exactly once. -/
def fifoStatement {K W : Type} [DecidableEq K] (s : Spool K W) (key : K)
    (w1 w2 : W) : Prop :=
  (((s.wait key w1).wait key w2).dispatch key).1 = some w1
  ∧ ((((s.wait key w1).wait key w2).dispatch key).2.dispatch key).1 = some w2
  ∧ (((((s.wait key w1).wait key w2).dispatch key).2.dispatch key).2.dispatch
      key).1 = none
  ∧ ((((((s.wait key w1).wait key w2).dispatch key).2.dispatch key).2).fire
      true key).1.handlerCalls = 1
  ∧ ((((((s.wait key w1).wait key w2).dispatch key).2.dispatch key).2).fire
      true key).1.fired = false

/-- C4: FIFO dispatch per key, then an unmatched dispatch, then fire runs the
new-conversation handler exactly once. -/
theorem spool_fifo_per_key {K W : Type} [DecidableEq K] (s : Spool K W)
    (key : K) (w1 w2 : W) (h : ∀ p ∈ s.waiters, p.1 ≠ key) :
    fifoStatement s key w1 w2 := by
  have h2 : removeFirst key (s.waiters ++ [(key, w1), (key, w2)])
      = some (w1, s.waiters ++ [(key, w2)]) := by
    rw [removeFirst_append_no_match key s.waiters [(key, w1), (key, w2)] h]
    simp [removeFirst]
  have h3 : removeFirst key (s.waiters ++ [(key, w2)])
      = some (w2, s.waiters ++ []) := by
    rw [removeFirst_append_no_match key s.waiters [(key, w2)] h]
    simp [removeFirst]
  have h4 : removeFirst key s.waiters = none :=
    (removeFirst_eq_none_iff key s.waiters).mpr h
  have hw : ((s.wait key w1).wait key w2).waiters
      = s.waiters ++ [(key, w1), (key, w2)] := by
    simp [Spool.wait]
  refine ⟨?_, ?_, ?_, ?_, ?_⟩ <;>
    simp [Spool.dispatch, Spool.fire, fifoStatement, hw, h2, h3, h4]

/-- Witness for C4 at a concrete spool: the empty spool over Nat keys and
Nat callback ids, key 0, waiters 1 and 2. -/
theorem spool_fifo_per_key_witness :
    fifoStatement (Spool.mk ([] : List (Nat × Nat))) 0 1 2 :=
  spool_fifo_per_key (Spool.mk ([] : List (Nat × Nat))) 0 1 2 (by simp)

/-- C5: with the new-conversation handler registered, every call to fire has
exactly one of two outcomes: either a waiting callback receives the
message and fire reports true with no handler invocation, or no waiter
matches, a single new Conversation is synthesized, the handler runs
exactly once, and fire reports false. -/
theorem spool_fire_dichotomy {K W : Type} [DecidableEq K] (s : Spool K W)
    (key : K) :
    ((s.fire true key).1.fired = true ∧ (∃ w, (s.fire true key).1.delivered = some w)
      ∧ (s.fire true key).1.handlerCalls = 0 ∧ (s.fire true key).1.convsMade = 0)
    ∨ ((s.fire true key).1.fired = false ∧ (s.fire true key).1.delivered = none
      ∧ (s.fire true key).1.handlerCalls = 1 ∧ (s.fire true key).1.convsMade = 1) := by
  cases hrf : removeFirst key s.waiters with
  | some cr =>
      obtain ⟨c2, rest2⟩ := cr
      left
      refine ⟨?_, ⟨c2, ?_⟩, ?_, ?_⟩ <;> simp [Spool.fire, Spool.dispatch, hrf]
  | none =>
      right
      refine ⟨?_, ?_, ?_, ?_⟩ <;> simp [Spool.fire, Spool.dispatch, hrf]

/-- A wit.ai entity as the bot consumes it: its value string. -/
structure Entity where
  value : String
  deriving DecidableEq, Repr

/-- Modelled from the spec: the NLU classifier's result. lib/wit.ts (listed
in tsconfig.json) is not among the provided source files; the spec's
external interface reads "classify(text) -> { intent?: string, entities:
mapping from tag to {value, normalized?} }". We keep the mapping as an
association list from tag to entity; the intent is the entity tagged
"intent", as the bot's calls `wit.entityValue(res, "intent")` use it. -/
structure WitResult where
  entities : List (String × Entity)
  deriving DecidableEq, Repr

/-- Modelled from the spec: wit.getEntity(res, tag) looks the tag up in the
classification's entity mapping. -/
def wit.getEntity (res : WitResult) (tag : String) : Option Entity :=
  (res.entities.find? fun p => p.1 == tag).map Prod.snd

/-- Modelled from the spec: wit.entityValue(res, tag) is the value of the
looked-up entity, when present. -/
def wit.entityValue (res : WitResult) (tag : String) : Option String :=
  (wit.getEntity res tag).map Entity.value

/-- Outcome of one `this.wit.message(response, {})` call inside query_loop:
the classification, or a rejection (caught by the `.catch`). -/
inductive NLUOutcome where
  | ok (res : WitResult)
  | err (msg : String)
  deriving DecidableEq, Repr

/-- How a query_loop run ends: it returns (with an entity, or null on
error/cancel), or the supplied response script is exhausted while the
loop is still suspended in `conv.recv()`. -/
inductive LoopResult where
  | returns (v : Option Entity)
  | waiting
  deriving DecidableEq, Repr

/-- The prompt message query_loop sends at the top of each iteration. -/
def promptText (prompt : String) : String :=
  prompt ++ "\n(\"cancel\" to quit)"

/-- OpalBot.query_loop (part_002 lines 366-386), with the classifications of
the conversation's future responses supplied as a script. While the value
is null: send the prompt, receive a response, classify it; a classifier
rejection is caught, reported as a chat message, and the function returns
null; a classification whose intent is "cancel" is acknowledged and the
function returns null; otherwise the value becomes the extracted entity
and the loop repeats. Returns the result together with every message sent
on the conversation, in order. -/
def query_loop : Option Entity → String → String → List NLUOutcome →
    LoopResult × List String
  | some v, _, _, _ => (LoopResult.returns (some v), [])
  | none, prompt, _, [] => (LoopResult.waiting, [promptText prompt])
  | none, prompt, _, NLUOutcome.err e :: _ =>
      (LoopResult.returns none,
        [promptText prompt, "Got an unexpected error: " ++ e])
  | none, prompt, tag, NLUOutcome.ok res :: rest =>
      if wit.entityValue res "intent" = some "cancel" then
        (LoopResult.returns none, [promptText prompt, "Alright, giving up"])
      else
        let next := query_loop (wit.getEntity res tag) prompt tag rest
        (next.1, promptText prompt :: next.2)

/-- A response outcome that query_loop passes over: a classification that is
neither a cancel nor carries a value for the queried tag. -/
def failedAttempt (tag : String) (o : NLUOutcome) : Prop :=
  ∃ r, o = NLUOutcome.ok r ∧ wit.entityValue r "intent" ≠ some "cancel"
    ∧ wit.getEntity r tag = none

/-- query_loop walks past failed classification attempts, sending one prompt
for each, and continues on the rest of the script. -/
theorem query_loop_skip_failed (prompt tag : String) :
    ∀ pre rest : List NLUOutcome, (∀ o ∈ pre, failedAttempt tag o) →
      query_loop none prompt tag (pre ++ rest)
        = ((query_loop none prompt tag rest).1,
            List.replicate pre.length (promptText prompt)
              ++ (query_loop none prompt tag rest).2)
  | [], rest => by intro _; simp
  | o :: pre, rest => by
      intro h
      obtain ⟨r, ho, hnc, hnone⟩ := h o (by simp)
      subst ho
      have ih := query_loop_skip_failed prompt tag pre rest
        fun o2 ho2 => h o2 (List.mem_cons_of_mem _ ho2)
      rw [List.cons_append, query_loop, if_neg hnc]
      simp only [hnone, ih, List.length_cons, List.replicate_succ, List.cons_append]

/-- C7: if a received response is classified with intent cancel, query_loop
sends the acknowledgement and immediately returns the null (cancelled)
result, regardless of how many failed attempts preceded it and of what
follows in the script; the returned value is the cancelled result, not a
slot value. -/
theorem query_loop_cancel_immediate (pre rest : List NLUOutcome)
    (res : WitResult) (prompt tag : String)
    (hpre : ∀ o ∈ pre, failedAttempt tag o)
    (hcancel : wit.entityValue res "intent" = some "cancel") :
    query_loop none prompt tag (pre ++ NLUOutcome.ok res :: rest)
      = (LoopResult.returns none,
          List.replicate pre.length (promptText prompt)
            ++ [promptText prompt, "Alright, giving up"]) := by
  rw [query_loop_skip_failed prompt tag pre (NLUOutcome.ok res :: rest) hpre]
  rw [query_loop, if_pos hcancel]

/-- A classification whose only entity is a cancel intent. -/
def cancelRes : WitResult := { entities := [("intent", { value := "cancel" })] }

/-- Witness for C7: a concrete script whose first response classifies as
cancel makes query_loop return null at once, after one prompt and the
acknowledgement. -/
theorem query_loop_cancel_witness :
    query_loop none "When?" "datetime" ([] ++ NLUOutcome.ok cancelRes :: [])
      = (LoopResult.returns none,
          List.replicate (List.length ([] : List NLUOutcome)) (promptText "When?")
            ++ [promptText "When?", "Alright, giving up"]) :=
  query_loop_cancel_immediate [] [] cancelRes "When?" "datetime"
    (by intro o ho; simp at ho) (by decide)

/-- A classification carrying a datetime entity (and no cancel intent). -/
def datetimeRes : WitResult :=
  { entities := [("datetime", { value := "tomorrow" })] }

/-- C6 counterexample: when the first classification call rejects, query_loop
reports the error as a chat message but then returns the null result at
once even though the very next scripted response carries the requested
slot value: the slot-filling loop does not continue with another prompt,
contradicting the claim. -/
theorem query_loop_nlu_error_counterexample :
    query_loop none "When?" "datetime"
        [NLUOutcome.err "wit died", NLUOutcome.ok datetimeRes]
      = (LoopResult.returns none,
          [promptText "When?", "Got an unexpected error: wit died"])
    ∧ (query_loop none "When?" "datetime"
        [NLUOutcome.err "wit died", NLUOutcome.ok datetimeRes]).1
      ≠ LoopResult.returns (some { value := "tomorrow" }) := by
  exact ⟨rfl, by decide⟩

/-- C6 (amended): a classifier failure inside query_loop is reported to the
user as a chat message ("Got an unexpected error: ..."), and query_loop
then returns the null result immediately, exactly one prompt having been
sent; the slot-filling loop does not continue, and the caller aborts the
dialogue handler just as on a cancel. -/
theorem query_loop_nlu_error_aborts (e : String) (rest : List NLUOutcome)
    (prompt tag : String) :
    query_loop none prompt tag (NLUOutcome.err e :: rest)
      = (LoopResult.returns none,
          [promptText prompt, "Got an unexpected error: " ++ e]) := rfl

/-- A calendar service choice (part_002, interface Settings). -/
inductive Service where
  | caldav | office | remoteSvc
  deriving DecidableEq, Repr

/-- The stored user settings the scheduling path reads: which service is
configured, if any (part_002, interface Settings). -/
structure Settings where
  service : Option Service
  deriving DecidableEq, Repr

/-- A user record of the users database (part_002, interface User). -/
structure UserRec where
  slack_id : String
  settings : Settings
  deriving DecidableEq, Repr

/-- OpalBot.createCalendarFromSettings (part_002): returns a calendar for
the configured service, or null when no service is configured. Which
concrete backend gets constructed is irrelevant to the claims, so the
chosen service stands for the calendar. -/
def createCalendarFromSettings (s : Settings) : Option Service :=
  s.service

/-- The slot-filling portion of OpalBot.handle_schedule_meeting (part_002
lines 391-431): check the caller's calendar; query_loop the contact slot;
look the target user up and check their calendar; query_loop the datetime
and duration slots. Each query_loop call consumes its own response
script. Returns the filled slots (target slack id, datetime and duration
entities), or none when any step aborts, together with every chat message
sent up to that point. -/
def fillSlots (me : UserRec) (users : List UserRec)
    (datetime_ent slack_id_ent duration_ent : Option Entity)
    (s1 s2 s3 : List NLUOutcome) :
    Option (String × Entity × Entity) × List String :=
  match createCalendarFromSettings me.settings with
  | none => (none, ["You don\x27t have any calendars set up!"])
  | some _ =>
    let q1 := query_loop slack_id_ent
      "Who did you want to schedule that meeting with?" "contact" s1
    match q1.1 with
    | LoopResult.waiting => (none, q1.2)
    | LoopResult.returns none => (none, q1.2)
    | LoopResult.returns (some sid) =>
      match users.find? fun u => u.slack_id == sid.value with
      | none => (none, q1.2 ++ ["I couldn\x27t find any users named "
          ++ sid.value ++ "!"])
      | some target =>
        match createCalendarFromSettings target.settings with
        | none => (none, q1.2 ++ [target.slack_id
            ++ " doesn\x27t have any calendars set up!"])
        | some _ =>
          let q2 := query_loop datetime_ent
            "When did you want to schedule that meeting?" "datetime" s2
          match q2.1 with
          | LoopResult.waiting => (none, q1.2 ++ q2.2)
          | LoopResult.returns none => (none, q1.2 ++ q2.2)
          | LoopResult.returns (some dt) =>
            let q3 := query_loop duration_ent
              "How long should the meeting be?" "duration" s3
            match q3.1 with
            | LoopResult.waiting => (none, q1.2 ++ q2.2 ++ q3.2)
            | LoopResult.returns none => (none, q1.2 ++ q2.2 ++ q3.2)
            | LoopResult.returns (some dur) =>
              (some (sid.value, dt, dur), q1.2 ++ q2.2 ++ q3.2)

/-- With a non-null value query_loop returns it at once: the while guard is
false, so no prompt is sent and no response is consumed. -/
theorem query_loop_some (v : Entity) (prompt tag : String)
    (script : List NLUOutcome) :
    query_loop (some v) prompt tag script = (LoopResult.returns (some v), []) := by
  cases script with
  | nil => rfl
  | cons o rest => cases o <;> simp [query_loop]

/-- C8: with a non-null initial value query_loop sends no prompt and returns
that value; the first scripted response carrying a non-null slot value is
returned with no prompt sent after it (one prompt per attempt, the last
one preceding that response); and a schedule-meeting request whose three
slots are all supplied up front completes slot-filling with no message at
all, so the transaction runs with no query_loop prompt. -/
theorem query_loop_no_prompt_when_supplied :
    (∀ (script : List NLUOutcome) (prompt tag : String) (v : Entity),
      query_loop (some v) prompt tag script = (LoopResult.returns (some v), []))
    ∧ (∀ (pre rest : List NLUOutcome) (res : WitResult) (prompt tag : String)
        (v : Entity), (∀ o ∈ pre, failedAttempt tag o) →
        wit.entityValue res "intent" ≠ some "cancel" →
        wit.getEntity res tag = some v →
        query_loop none prompt tag (pre ++ NLUOutcome.ok res :: rest)
          = (LoopResult.returns (some v),
              List.replicate pre.length (promptText prompt)
                ++ [promptText prompt]))
    ∧ (∀ (me target : UserRec) (users : List UserRec) (dt sid dur : Entity)
        (s1 s2 s3 : List NLUOutcome) (svc1 svc2 : Service),
        me.settings.service = some svc1 →
        users.find? (fun u => u.slack_id == sid.value) = some target →
        target.settings.service = some svc2 →
        fillSlots me users (some dt) (some sid) (some dur) s1 s2 s3
          = (some (sid.value, dt, dur), [])) := by
  refine ⟨fun script prompt tag v => query_loop_some v prompt tag script, ?_, ?_⟩
  · intro pre rest res prompt tag v hpre hnc hv
    rw [query_loop_skip_failed prompt tag pre (NLUOutcome.ok res :: rest) hpre]
    rw [query_loop, if_neg hnc, hv, query_loop_some]
  · intro me target users dt sid dur s1 s2 s3 svc1 svc2 hme hfind htarget
    simp only [fillSlots, createCalendarFromSettings, hme, hfind, htarget,
      query_loop]
    rfl

/-- A user record with a configured caldav service. -/
def aliceRec : UserRec :=
  { slack_id := "alice", settings := { service := some Service.caldav } }

/-- A second user record with a configured office service. -/
def bobRec : UserRec :=
  { slack_id := "bob", settings := { service := some Service.office } }

/-- Witness for C8 at concrete inputs: a supplied value returns with no
prompt; a first response carrying the slot ends the loop with a single
prompt; and slot-filling with all three slots supplied up front sends no
message. -/
theorem query_loop_no_prompt_witness :
    query_loop (some { value := "3pm" }) "When?" "datetime" []
      = (LoopResult.returns (some { value := "3pm" }), [])
    ∧ query_loop none "When?" "datetime"
        ([] ++ NLUOutcome.ok datetimeRes :: [])
      = (LoopResult.returns (some { value := "tomorrow" }),
          List.replicate (List.length ([] : List NLUOutcome))
            (promptText "When?") ++ [promptText "When?"])
    ∧ fillSlots aliceRec [aliceRec, bobRec] (some { value := "tomorrow" })
        (some { value := "bob" }) (some { value := "30 minutes" }) [] [] []
      = (some ("bob", { value := "tomorrow" }, { value := "30 minutes" }), []) :=
  ⟨query_loop_no_prompt_when_supplied.1 [] "When?" "datetime" { value := "3pm" },
   query_loop_no_prompt_when_supplied.2.1 [] [] datetimeRes "When?" "datetime"
     { value := "tomorrow" } (by intro o ho; simp at ho) (by decide) (by decide),
   query_loop_no_prompt_when_supplied.2.2 aliceRec bobRec [aliceRec, bobRec]
     { value := "tomorrow" } { value := "bob" } { value := "30 minutes" }
     [] [] [] Service.caldav Service.office rfl (by decide) rfl⟩

/-- JavaScript String.prototype.trim as the source applies it to incoming
text: strip leading and trailing whitespace. -/
def jsTrim (s : String) : String :=
  String.mk (((s.data.dropWhile Char.isWhitespace).reverse.dropWhile
    Char.isWhitespace).reverse)

/-- The bot's default response (part_002, OpalBot.default_response), sent
when no other response is appropriate. -/
def default_response : String := ":confused: :grey_question:"

/-- The intent handler OpalBot.interact dispatches to. Each constructor
stands for the corresponding handle_* method of OpalBot; the
schedule-meeting handler receives the three entities extracted from the
classification. -/
inductive IntentAction where
  | greeting | bye | thanks | show_calendar
  | schedule_meeting (datetime contact duration : Option Entity)
  | setup_calendar | help | who | fallback
  deriving DecidableEq, Repr

/-- OpalBot.interact (part_002 lines 514-553): if the text trims to the
empty string, or trims to exactly the bot's own default confused
response, return immediately; otherwise call the NLU classifier
(`classify` is the environment's answer for this text) and dispatch on
the result. Returns whether the classifier was called, and which handler
was invoked (none in the guarded cases). Every chat message of this
interaction is sent inside the dispatched handler, so no handler means no
message is sent. -/
def interact (text : String) (classify : WitResult) : Bool × Option IntentAction :=
  if jsTrim text = "" then (false, none)
  else if jsTrim text = default_response then (false, none)
  else
    let res := classify
    (true,
      if (wit.getEntity res "greetings").isSome then some IntentAction.greeting
      else if (wit.getEntity res "bye").isSome then some IntentAction.bye
      else if (wit.getEntity res "thanks").isSome then some IntentAction.thanks
      else
        match wit.entityValue res "intent" with
        | some "show_calendar" => some IntentAction.show_calendar
        | some "schedule_meeting" =>
            some (IntentAction.schedule_meeting (wit.getEntity res "datetime")
              (wit.getEntity res "contact") (wit.getEntity res "duration"))
        | some "setup_calendar" => some IntentAction.setup_calendar
        | some "help" => some IntentAction.help
        | some "who" => some IntentAction.who
        | _ => some IntentAction.fallback)

/-- C10: for any conversation text that trims to the empty string or to
exactly the bot's default confused response, interact returns without
calling the NLU classifier and without invoking any intent handler, so no
message is sent. -/
theorem interact_ignores_empty_and_confused (text : String)
    (classify : WitResult)
    (h : jsTrim text = "" ∨ jsTrim text = default_response) :
    interact text classify = (false, none) := by
  rcases h with h | h
  · simp [interact, h]
  · rw [interact, h]
    simp [default_response]

/-- Witness for C10: the bot's own default confused response, surrounded by
whitespace, is ignored: no classifier call and no handler. -/
theorem interact_guard_witness :
    interact "  :confused: :grey_question: " { entities := [] } = (false, none) :=
  interact_ignores_empty_and_confused "  :confused: :grey_question: "
    { entities := [] } (Or.inr (by decide))
